import Mathlib

/-!
Verification of `edge_anamoly_detector.py`.

A shallow embedding of the edge anomaly detector: a sampler producing
synthetic sensor readings, an anomaly checker comparing readings to static
per-sensor bounds, a health summarizer computing per-sensor mean and sample
standard deviation, and a driver looping N ticks before summarizing.

Modelling choices:
* Python floats are modelled as exact rationals (`ℚ`); the standard
  deviation, which takes a real square root, lives in `ℝ`.
* Python dicts are association lists in insertion order
  (`List (String × _)`); dict indexing is `alookup`.
* A Python exception (`KeyError` from `d[k]`, `StatisticsError` from
  `mean([])`) makes the surrounding computation return `none`.
* The randomness source is an explicit parameter: `random.uniform a b` is
  `uniform a b u` for a draw `u` with `0 ≤ u < 1`.
* The two functions that walk a loop while the heap holds the reading, the
  log and the configuration (`detect_anomalies`, `health_status`) are
  embedded with an explicit state record threaded through the loop, so
  that frame properties (what the loop leaves untouched) are statable.
-/

namespace EdgeDetector

/-- Dict read `d[k]`: value at the first matching key, `none` when absent
(Python raises `KeyError`). -/
def alookup (k : String) : List (String × α) → Option α
  | [] => none
  | (k₂, v) :: rest => if k₂ = k then some v else alookup k rest

/-- A `Reading` maps sensor names to values, in insertion order. -/
abbrev Reading := List (String × ℚ)

/-- `SENSOR_CONFIG`: static per-sensor `{min, max}` bounds (modelled as a
pair, `min` first). -/
def SENSOR_CONFIG : List (String × (ℚ × ℚ)) :=
  [("temperature", (19.0, 24.0)),
   ("vibration", (0.1, 1.0)),
   ("voltage", (110.0, 125.0))]

/-- Number of readings taken by the driver. -/
def READINGS : Nat := 10

/-- `random.uniform a b` with the underlying draw `u ∈ [0, 1)` explicit. -/
def uniform (a b u : ℚ) : ℚ := a + (b - a) * u

/-- Python `round(x, 2)`: round to two decimal places. -/
def round2 (x : ℚ) : ℚ := (round (100 * x) : ℤ) / 100

/-- `generate_sensor_data`: one synthetic batch; three fresh draws from the
randomness source, one per sensor, each rounded to 2 decimals. -/
def generate_sensor_data (u : ℚ × ℚ × ℚ) : Reading :=
  [("temperature", round2 (uniform 18.5 24.5 u.1)),
   ("vibration", round2 (uniform 0.05 1.1 u.2.1)),
   ("voltage", round2 (uniform 108.0 127.0 u.2.2))]

/-! ## Anomaly checker -/

/-- The heap visible to the loop body of `detect_anomalies`: the global
configuration, the input reading, and the `anomalies` dict under
construction. -/
structure DetectState where
  config : List (String × (ℚ × ℚ))
  data : Reading
  anomalies : Reading

/-- The `for sensor, reading in data.items()` loop of `detect_anomalies`:
look the sensor up in the configuration (failing like Python's `KeyError`
when absent) and append to `anomalies` when the value is strictly outside
`[min, max]`. -/
def detectLoop : DetectState → Reading → Option DetectState
  | s, [] => some s
  | s, (sensor, reading) :: rest =>
    match alookup sensor s.config with
    | none => none
    | some limits =>
      if reading < limits.1 ∨ reading > limits.2 then
        detectLoop { s with anomalies := s.anomalies ++ [(sensor, reading)] } rest
      else
        detectLoop s rest

/-- `detect_anomalies(data)`: run the loop from an empty `anomalies` dict
and return it. -/
def detect_anomalies (data : Reading) : Option Reading :=
  (detectLoop ⟨SENSOR_CONFIG, data, []⟩ data).map DetectState.anomalies

/-- Whether one `(sensor, value)` pair is anomalous: the sensor is
configured and the value lies strictly outside its `[min, max]`. -/
def isAnomalous (cfg : List (String × (ℚ × ℚ))) (p : String × ℚ) : Bool :=
  match alookup p.1 cfg with
  | none => false
  | some limits => decide (p.2 < limits.1) || decide (p.2 > limits.2)

/-! ## Health summarizer -/

/-- `[entry[sensor] for entry in log]`, failing when some entry lacks the
sensor. -/
def extractValues (sensor : String) : List Reading → Option (List ℚ)
  | [] => some []
  | entry :: rest => do
    let v ← alookup sensor entry
    let t ← extractValues sensor rest
    pure (v :: t)

/-- `statistics.mean`: arithmetic mean, failing on an empty sample. -/
def meanQ (l : List ℚ) : Option ℚ :=
  if l.isEmpty then none else some (l.sum / l.length)

/-- Sample variance `Σ (x - mean)² / (n - 1)` (meaningful for `n ≥ 2`). -/
def sampleVariance (l : List ℚ) : ℚ :=
  (l.map (fun x => (x - l.sum / l.length) ^ 2)).sum / ((l.length : ℚ) - 1)

/-- `statistics.stdev`: sample standard deviation. -/
noncomputable def stdevR (l : List ℚ) : ℝ := Real.sqrt (sampleVariance l)

/-- `round(x, 2)` on a real value. -/
noncomputable def round2R (x : ℝ) : ℝ := ((round (100 * x) : ℤ) : ℝ) / 100

/-- The body of `health_status`'s loop for one sensor: collect the values,
average them (failing on an empty log like `statistics.mean`), and take the
rounded sample standard deviation when there is more than one value, `0.0`
otherwise. -/
noncomputable def sensorStatus (log : List Reading) (sensor : String) :
    Option (ℚ × ℝ) := do
  let values ← extractValues sensor log
  let avg ← (meanQ values).map round2
  let sd : ℝ := if 1 < values.length then round2R (stdevR values) else 0
  pure (avg, sd)

/-- The heap visible to the loop of `health_status`: the configuration, the
log, and the `status` dict under construction. -/
structure HealthState where
  config : List (String × (ℚ × ℚ))
  log : List Reading
  status : List (String × (ℚ × ℝ))

/-- The `for sensor in SENSOR_CONFIG` loop of `health_status`, appending
one `{avg, std_dev}` entry per configured sensor. -/
noncomputable def healthLoop : HealthState → List (String × (ℚ × ℚ)) → Option HealthState
  | s, [] => some s
  | s, (sensor, _) :: rest => do
    let v ← sensorStatus s.log sensor
    healthLoop { s with status := s.status ++ [(sensor, v)] } rest

/-- `health_status(log)`: run the loop from an empty `status` dict over the
configured sensors and return it. -/
noncomputable def health_status (log : List Reading) :
    Option (List (String × (ℚ × ℝ))) :=
  (healthLoop ⟨SENSOR_CONFIG, log, []⟩ SENSOR_CONFIG).map HealthState.status

/-! ## Driver -/

/-- The log after `n` iterations of the driver loop: each tick generates a
reading from that tick's three random draws and appends it. -/
def mainLog (rand : Nat → ℚ × ℚ × ℚ) : Nat → List Reading
  | 0 => []
  | n + 1 => mainLog rand n ++ [generate_sensor_data (rand n)]

/-- The object serialized to `edge_health_log.json` after `n` ticks: the
`readings` array (the log, chronological) and the `summary`, `none` when
summarization fails. -/
noncomputable def mainOutput (rand : Nat → ℚ × ℚ × ℚ) (n : Nat) :
    Option (List Reading × List (String × (ℚ × ℝ))) :=
  (health_status (mainLog rand n)).map (fun summary => (mainLog rand n, summary))

/-! ## Spec-side views used in the statements -/

/-- One sensor's values across the log, in log order. -/
def valsOf (sensor : String) (log : List Reading) : List ℚ :=
  log.filterMap (alookup sensor)

/-- A value representable with exactly two decimal places. -/
def TwoDecimals (x : ℚ) : Prop := ∃ k : ℤ, x = (k : ℚ) / 100

/-- A degenerate randomness source (used to instantiate driver theorems). -/
def randZero : Nat → ℚ × ℚ × ℚ := fun _ => (0, 0, 0)

/-! ## Association-list lemmas -/

theorem alookup_isSome_iff {l : List (String × α)} {k : String} :
    (alookup k l).isSome ↔ k ∈ l.map Prod.fst := by
  induction l with
  | nil => simp [alookup]
  | cons p rest ih =>
    obtain ⟨k₂, v⟩ := p
    simp only [alookup, List.map_cons, List.mem_cons]
    by_cases h : k₂ = k
    · subst h; simp
    · simp only [if_neg h, ih]
      exact (or_iff_right (fun hh => h hh.symm)).symm

theorem alookup_mem {l : List (String × α)} {k : String} {v : α}
    (h : alookup k l = some v) : (k, v) ∈ l := by
  induction l with
  | nil => simp [alookup] at h
  | cons p rest ih =>
    obtain ⟨k₂, v₂⟩ := p
    by_cases hk : k₂ = k
    · simp only [alookup, if_pos hk] at h
      subst hk
      obtain rfl := Option.some.inj h
      exact List.mem_cons_self _ _
    · simp only [alookup, if_neg hk] at h
      exact List.mem_cons_of_mem _ (ih h)

theorem mem_alookup {l : List (String × α)} (hnd : (l.map Prod.fst).Nodup)
    {k : String} {v : α} (h : (k, v) ∈ l) : alookup k l = some v := by
  induction l with
  | nil => simp at h
  | cons p rest ih =>
    obtain ⟨k₂, v₂⟩ := p
    rw [List.map_cons, List.nodup_cons] at hnd
    by_cases hk : k₂ = k
    · subst hk
      rcases List.mem_cons.mp h with heq | hmem
      · injection heq with h₁ h₂
        subst h₂
        simp [alookup]
      · exact absurd (List.mem_map.mpr ⟨(k₂, v), hmem, rfl⟩) hnd.1
    · simp only [alookup, if_neg hk]
      rcases List.mem_cons.mp h with heq | hmem
      · injection heq with h₁ h₂
        exact absurd h₁.symm hk
      · exact ih hnd.2 hmem

/-! ## Anomaly-checker lemmas -/

theorem isAnomalous_iff {cfg : List (String × (ℚ × ℚ))} {p : String × ℚ}
    {limits : ℚ × ℚ} (hl : alookup p.1 cfg = some limits) :
    isAnomalous cfg p = true ↔ (p.2 < limits.1 ∨ p.2 > limits.2) := by
  simp [isAnomalous, hl]

theorem detectLoop_run :
    ∀ (l : Reading) (cfg : List (String × (ℚ × ℚ))) (dat : Reading) (acc : Reading),
      (∀ p ∈ l, (alookup p.1 cfg).isSome) →
      detectLoop ⟨cfg, dat, acc⟩ l = some ⟨cfg, dat, acc ++ l.filter (isAnomalous cfg)⟩ := by
  intro l
  induction l with
  | nil => intro cfg dat acc _; simp [detectLoop]
  | cons p rest ih =>
    intro cfg dat acc hall
    obtain ⟨sensor, reading⟩ := p
    obtain ⟨limits, hl⟩ :=
      Option.isSome_iff_exists.mp (hall _ (List.mem_cons_self _ _))
    have htail : ∀ q ∈ rest, (alookup q.1 cfg).isSome :=
      fun q hq => hall q (List.mem_cons_of_mem _ hq)
    simp only [detectLoop, hl]
    by_cases hc : reading < limits.1 ∨ reading > limits.2
    · rw [if_pos hc, ih _ _ _ htail]
      have ha : isAnomalous cfg (sensor, reading) = true :=
        (isAnomalous_iff hl).mpr hc
      simp [List.filter_cons, ha]
    · rw [if_neg hc, ih _ _ _ htail]
      have ha : isAnomalous cfg (sensor, reading) = false := by
        rw [Bool.eq_false_iff]
        intro hcontra
        exact hc ((isAnomalous_iff hl).mp hcontra)
      simp [List.filter_cons, ha]

theorem detectLoop_eq_none_iff :
    ∀ (l : Reading) (s : DetectState),
      detectLoop s l = none ↔ ∃ p ∈ l, alookup p.1 s.config = none := by
  intro l
  induction l with
  | nil => intro s; simp [detectLoop]
  | cons p rest ih =>
    intro s
    obtain ⟨sensor, reading⟩ := p
    cases hl : alookup sensor s.config with
    | none =>
      simp only [detectLoop, hl]
      exact iff_of_true trivial ⟨(sensor, reading), List.mem_cons_self _ _, hl⟩
    | some limits =>
      simp only [detectLoop, hl]
      by_cases hc : reading < limits.1 ∨ reading > limits.2
      · rw [if_pos hc, ih]
        simp [hl]
      · rw [if_neg hc, ih]
        simp [hl]

theorem detectLoop_frame :
    ∀ (l : Reading) (s s₂ : DetectState),
      detectLoop s l = some s₂ → s₂.config = s.config ∧ s₂.data = s.data := by
  intro l
  induction l with
  | nil =>
    intro s s₂ h
    obtain rfl := Option.some.inj h
    exact ⟨rfl, rfl⟩
  | cons p rest ih =>
    intro s s₂ h
    obtain ⟨sensor, reading⟩ := p
    cases hl : alookup sensor s.config with
    | none =>
      simp only [detectLoop, hl] at h
      exact Option.noConfusion h
    | some limits =>
      simp only [detectLoop, hl] at h
      by_cases hc : reading < limits.1 ∨ reading > limits.2
      · rw [if_pos hc] at h
        have hh := ih _ _ h
        exact hh
      · rw [if_neg hc] at h
        exact ih _ _ h

/-! ## Health-summarizer lemmas -/

theorem extractValues_run {sensor : String} :
    ∀ log : List Reading, (∀ r ∈ log, (alookup sensor r).isSome) →
      extractValues sensor log = some (valsOf sensor log) := by
  intro log
  induction log with
  | nil => intro _; simp [extractValues, valsOf]
  | cons entry rest ih =>
    intro hall
    obtain ⟨v, hv⟩ :=
      Option.isSome_iff_exists.mp (hall _ (List.mem_cons_self _ _))
    have ht := ih (fun r hr => hall r (List.mem_cons_of_mem _ hr))
    simp [extractValues, valsOf, List.filterMap_cons, hv, ht]

theorem valsOf_length {sensor : String} :
    ∀ log : List Reading, (∀ r ∈ log, (alookup sensor r).isSome) →
      (valsOf sensor log).length = log.length := by
  intro log
  induction log with
  | nil => intro _; rfl
  | cons entry rest ih =>
    intro hall
    obtain ⟨v, hv⟩ :=
      Option.isSome_iff_exists.mp (hall _ (List.mem_cons_self _ _))
    have ht := ih (fun r hr => hall r (List.mem_cons_of_mem _ hr))
    simp [valsOf, List.filterMap_cons, hv]
    simpa [valsOf] using ht

theorem sensorStatus_run {sensor : String} {log : List Reading}
    (hne : log ≠ []) (hall : ∀ r ∈ log, (alookup sensor r).isSome) :
    sensorStatus log sensor =
      some (round2 ((valsOf sensor log).sum / ((valsOf sensor log).length : ℚ)),
        if 1 < log.length then round2R (stdevR (valsOf sensor log)) else 0) := by
  have hv := extractValues_run log hall
  have hlen := valsOf_length log hall
  have hpos : 0 < log.length := List.length_pos.mpr hne
  have hvne : valsOf sensor log ≠ [] := by
    intro hcontra
    rw [hcontra] at hlen
    simp at hlen
    omega
  simp [sensorStatus, hv, meanQ, hvne, hlen]

theorem sensorStatus_empty (sensor : String) : sensorStatus [] sensor = none := by
  simp [sensorStatus, extractValues, meanQ]

theorem healthLoop_run :
    ∀ (cfgIter : List (String × (ℚ × ℚ))) (cfg : List (String × (ℚ × ℚ)))
      (log : List Reading) (acc : List (String × (ℚ × ℝ))),
      (∀ s ∈ cfgIter.map Prod.fst, (sensorStatus log s).isSome) →
      ∃ t, healthLoop ⟨cfg, log, acc⟩ cfgIter = some ⟨cfg, log, acc ++ t⟩ ∧
        t.map Prod.fst = cfgIter.map Prod.fst ∧
        ∀ p ∈ t, sensorStatus log p.1 = some p.2 := by
  intro cfgIter
  induction cfgIter with
  | nil =>
    intro cfg log acc _
    exact ⟨[], by simp [healthLoop], rfl, by simp⟩
  | cons c rest ih =>
    intro cfg log acc hall
    obtain ⟨sensor, bounds⟩ := c
    obtain ⟨v, hv⟩ := Option.isSome_iff_exists.mp (hall sensor (by simp))
    obtain ⟨t, ht, hkeys, hmem⟩ :=
      ih _ _ (acc ++ [(sensor, v)]) (fun s hs => hall s (by simp [hs]))
    refine ⟨(sensor, v) :: t, ?_, ?_, ?_⟩
    · simpa [healthLoop, hv] using ht
    · simp [hkeys]
    · intro p hp
      rcases List.mem_cons.mp hp with rfl | hp₂
      · exact hv
      · exact hmem p hp₂

theorem healthLoop_frame :
    ∀ (cfgIter : List (String × (ℚ × ℚ))) (s s₂ : HealthState),
      healthLoop s cfgIter = some s₂ → s₂.config = s.config ∧ s₂.log = s.log := by
  intro cfgIter
  induction cfgIter with
  | nil =>
    intro s s₂ h
    obtain rfl := Option.some.inj h
    exact ⟨rfl, rfl⟩
  | cons c rest ih =>
    intro s s₂ h
    obtain ⟨sensor, bounds⟩ := c
    simp only [healthLoop] at h
    cases hv : sensorStatus s.log sensor with
    | none => rw [hv] at h; exact Option.noConfusion h
    | some v =>
      rw [hv] at h
      have hh := ih _ _ h
      exact hh

theorem health_status_empty_eq_none : health_status [] = none := by
  simp [health_status, SENSOR_CONFIG, healthLoop, sensorStatus_empty]

/-! ## Permutation lemmas -/

theorem sensorStatus_of_perm {log₁ log₂ : List Reading} (hp : log₁.Perm log₂)
    (sensor : String) (hall : ∀ r ∈ log₁, (alookup sensor r).isSome) :
    sensorStatus log₁ sensor = sensorStatus log₂ sensor := by
  have hall₂ : ∀ r ∈ log₂, (alookup sensor r).isSome :=
    fun r hr => hall r (hp.mem_iff.mpr hr)
  have hv₁ := extractValues_run log₁ hall
  have hv₂ := extractValues_run log₂ hall₂
  have hpv : (valsOf sensor log₁).Perm (valsOf sensor log₂) := hp.filterMap _
  have hsum := hpv.sum_eq
  have hlen := hpv.length_eq
  have hvar : sampleVariance (valsOf sensor log₁)
      = sampleVariance (valsOf sensor log₂) := by
    simp only [sampleVariance, hsum, hlen]
    rw [(hpv.map _).sum_eq]
  have hmq : meanQ (valsOf sensor log₁) = meanQ (valsOf sensor log₂) := by
    simp only [meanQ, hsum, hlen]
    rcases List.isEmpty_iff.mp.mt with _
    by_cases he : (valsOf sensor log₂).isEmpty
    · have he₁ : (valsOf sensor log₁).isEmpty := by
        rw [List.isEmpty_iff_length_eq_zero] at he ⊢
        rw [hlen]; exact he
      rw [he, he₁]
    · have he₁ : (valsOf sensor log₁).isEmpty = false := by
        rw [Bool.eq_false_iff]
        intro hc
        rw [List.isEmpty_iff_length_eq_zero, hlen,
          ← List.isEmpty_iff_length_eq_zero] at hc
        exact he hc
      rw [he₁, Bool.eq_false_iff.mpr he]
  simp [sensorStatus, hv₁, hv₂, hmq, hlen, stdevR, hvar]

theorem healthLoop_status_congr :
    ∀ (cfgIter : List (String × (ℚ × ℚ))) {cfg : List (String × (ℚ × ℚ))}
      {log₁ log₂ : List Reading} (acc : List (String × (ℚ × ℝ))),
      (∀ s ∈ cfgIter.map Prod.fst, sensorStatus log₁ s = sensorStatus log₂ s) →
      (healthLoop ⟨cfg, log₁, acc⟩ cfgIter).map HealthState.status
        = (healthLoop ⟨cfg, log₂, acc⟩ cfgIter).map HealthState.status := by
  intro cfgIter
  induction cfgIter with
  | nil => intro cfg log₁ log₂ acc _; rfl
  | cons c rest ih =>
    intro cfg log₁ log₂ acc hall
    obtain ⟨sensor, bounds⟩ := c
    have hs : sensorStatus log₁ sensor = sensorStatus log₂ sensor :=
      hall sensor (by simp)
    simp only [healthLoop, hs]
    cases sensorStatus log₂ sensor with
    | none => rfl
    | some v => exact ih _ (fun s hsmem => hall s (by simp [hsmem]))

/-! ## Driver-loop lemmas -/

theorem mainLog_length (rand : Nat → ℚ × ℚ × ℚ) :
    ∀ n : Nat, (mainLog rand n).length = n := by
  intro n
  induction n with
  | zero => rfl
  | succ n ih => simp [mainLog, ih]

theorem mainLog_keys (rand : Nat → ℚ × ℚ × ℚ) :
    ∀ (n : Nat), ∀ r ∈ mainLog rand n,
      r.map Prod.fst = ["temperature", "vibration", "voltage"] := by
  intro n
  induction n with
  | zero => intro r hr; simp [mainLog] at hr
  | succ n ih =>
    intro r hr
    simp only [mainLog, List.mem_append, List.mem_singleton] at hr
    rcases hr with hr | rfl
    · exact ih r hr
    · rfl

theorem mainLog_get (rand : Nat → ℚ × ℚ × ℚ) :
    ∀ (n i : Nat) (h : i < (mainLog rand n).length),
      (mainLog rand n).get ⟨i, h⟩ = generate_sensor_data (rand i) := by
  intro n
  induction n with
  | zero =>
    intro i h
    rw [mainLog_length] at h
    omega
  | succ n ih =>
    intro i h
    simp only [mainLog, List.get_eq_getElem]
    by_cases hi : i < (mainLog rand n).length
    · rw [List.getElem_append_left hi]
      have := ih i hi
      rw [List.get_eq_getElem] at this
      exact this
    · have hlen : i = (mainLog rand n).length := by
        rw [mainLog_length] at hi ⊢
        rw [mainLog_length] at h
        omega
      rw [List.getElem_concat_length _ _ _ hlen]
      rw [mainLog_length] at hlen
      rw [hlen]

/-! ## Rounding lemmas -/

theorem round_mono_q {x y : ℚ} (h : x ≤ y) : round x ≤ round y := by
  rw [round_eq, round_eq]
  exact Int.floor_mono (by linarith)

theorem round2_ge {x : ℚ} {n : ℤ} (h : (n : ℚ) ≤ 100 * x) :
    (n : ℚ) / 100 ≤ round2 x := by
  have h₁ : n ≤ round (100 * x) := by
    calc n = round ((n : ℚ)) := (round_intCast n).symm
    _ ≤ round (100 * x) := round_mono_q h
  rw [round2]
  have h₂ : (n : ℚ) ≤ ((round (100 * x) : ℤ) : ℚ) := Int.cast_le.mpr h₁
  linarith [(div_le_div_iff_of_pos_right (c := (100 : ℚ)) (by norm_num)).mpr h₂]

theorem round2_lt_bound {x : ℚ} {n : ℤ} (h : 100 * x < (n : ℚ)) :
    round2 x ≤ (n : ℚ) / 100 := by
  have h₁ : round (100 * x) ≤ n := by
    rw [round_eq]
    calc ⌊100 * x + 1 / 2⌋ ≤ ⌊(1 : ℚ) / 2 + (n : ℚ)⌋ :=
          Int.floor_mono (by linarith)
    _ = ⌊(1 : ℚ) / 2⌋ + n := Int.floor_add_int _ _
    _ = n := by
        rw [Int.floor_eq_zero_iff.mpr (by constructor <;> norm_num)]
        ring
  rw [round2]
  have h₂ : ((round (100 * x) : ℤ) : ℚ) ≤ (n : ℚ) := Int.cast_le.mpr h₁
  linarith [(div_le_div_iff_of_pos_right (c := (100 : ℚ)) (by norm_num)).mpr h₂]

theorem round2_uniform_bounds (a b : ℚ) (la lb : ℤ) {u : ℚ}
    (h₀ : 0 ≤ u) (h₁ : u < 1)
    (hla : (la : ℚ) = 100 * a) (hlb : (lb : ℚ) = 100 * b) (hab : a < b) :
    a ≤ round2 (uniform a b u) ∧ round2 (uniform a b u) ≤ b ∧
      TwoDecimals (round2 (uniform a b u)) := by
  have hx₁ : a ≤ uniform a b u := by
    have : 0 ≤ (b - a) * u := mul_nonneg (by linarith) h₀
    simp only [uniform]
    linarith
  have hx₂ : uniform a b u < b := by
    have : (b - a) * u < (b - a) * 1 := by
      apply mul_lt_mul_of_pos_left h₁
      linarith
    simp only [uniform]
    linarith
  refine ⟨?_, ?_, round (100 * uniform a b u), rfl⟩
  · have := round2_ge (x := uniform a b u) (n := la) (by rw [hla]; linarith)
    calc a = (la : ℚ) / 100 := by rw [hla]; ring
    _ ≤ _ := this
  · have := round2_lt_bound (x := uniform a b u) (n := lb) (by rw [hlb]; linarith)
    calc round2 (uniform a b u) ≤ (lb : ℚ) / 100 := this
    _ = b := by rw [hlb]; ring

/-! ## Claim theorems -/

/-- C1: for every reading whose sensor keys all appear in `SENSOR_CONFIG`,
`detect_anomalies` returns a map binding a sensor to exactly the reading's
value iff that value is strictly below the configured min or strictly above
the configured max; a reading with all values within bounds (boundaries
included) yields the empty map, and the reading
`{temperature: 25.0, vibration: 0.5, voltage: 115.0}` yields exactly
`{temperature: 25.0}`. -/
theorem detect_anomalies_spec :
    (∀ data : Reading,
      (∀ p ∈ data, (alookup p.1 SENSOR_CONFIG).isSome) →
      (data.map Prod.fst).Nodup →
      ∃ anoms, detect_anomalies data = some anoms ∧
        ∀ (s : String) (v : ℚ),
          alookup s anoms = some v ↔
            alookup s data = some v ∧
              ∃ limits, alookup s SENSOR_CONFIG = some limits ∧
                (v < limits.1 ∨ v > limits.2)) ∧
    (∀ data : Reading,
      (∀ p ∈ data, (alookup p.1 SENSOR_CONFIG).isSome) →
      (∀ p ∈ data, ∀ limits, alookup p.1 SENSOR_CONFIG = some limits →
        limits.1 ≤ p.2 ∧ p.2 ≤ limits.2) →
      detect_anomalies data = some []) ∧
    detect_anomalies [("temperature", 25), ("vibration", 0.5), ("voltage", 115)]
      = some [("temperature", 25)] ∧
    detect_anomalies [("temperature", 20), ("vibration", 0.5), ("voltage", 115)]
      = some [] ∧
    detect_anomalies [("temperature", 24), ("vibration", 0.1), ("voltage", 110)]
      = some [] := by
  refine ⟨?_, ?_, ?_, ?_, ?_⟩
  · intro data hall hnd
    have hrun := detectLoop_run data SENSOR_CONFIG data [] hall
    refine ⟨data.filter (isAnomalous SENSOR_CONFIG), by simp [detect_anomalies, hrun], ?_⟩
    intro s v
    constructor
    · intro ha
      have hmem := List.mem_filter.mp (alookup_mem ha)
      obtain ⟨limits, hl⟩ :=
        Option.isSome_iff_exists.mp (hall _ hmem.1)
      exact ⟨mem_alookup hnd hmem.1, limits, hl, (isAnomalous_iff hl).mp hmem.2⟩
    · rintro ⟨hd, limits, hcl, hcond⟩
      have hndf : ((data.filter (isAnomalous SENSOR_CONFIG)).map Prod.fst).Nodup :=
        ((data.filter_sublist).map Prod.fst).nodup hnd
      exact mem_alookup hndf
        (List.mem_filter.mpr ⟨alookup_mem hd, (isAnomalous_iff hcl).mpr hcond⟩)
  · intro data hall hin
    have hrun := detectLoop_run data SENSOR_CONFIG data [] hall
    have hfil : data.filter (isAnomalous SENSOR_CONFIG) = [] := by
      rw [List.filter_eq_nil_iff]
      intro p hp hcontra
      obtain ⟨limits, hl⟩ := Option.isSome_iff_exists.mp (hall _ hp)
      have hcond := (isAnomalous_iff hl).mp hcontra
      have hbound := hin p hp limits hl
      rcases hcond with hlt | hgt
      · exact absurd hbound.1 (not_le.mpr hlt)
      · exact absurd hbound.2 (not_le.mpr hgt)
    simp [detect_anomalies, hrun, hfil]
  · simp [detect_anomalies, detectLoop, SENSOR_CONFIG, alookup]
    norm_num
  · simp [detect_anomalies, detectLoop, SENSOR_CONFIG, alookup]
    norm_num
  · simp [detect_anomalies, detectLoop, SENSOR_CONFIG, alookup]
    norm_num

/-- C1 witness: the characterization instantiated at the spec's example
reading, with both hypotheses discharged concretely. -/
theorem detect_anomalies_spec_witness :
    (∀ p ∈ ([("temperature", 25), ("vibration", 0.5), ("voltage", 115)] : Reading),
      (alookup p.1 SENSOR_CONFIG).isSome) ∧
    (((([("temperature", 25), ("vibration", 0.5), ("voltage", 115)] : Reading)).map
      Prod.fst).Nodup) ∧
    ∃ anoms,
      detect_anomalies [("temperature", 25), ("vibration", 0.5), ("voltage", 115)]
        = some anoms ∧
      ∀ (s : String) (v : ℚ),
        alookup s anoms = some v ↔
          alookup s [("temperature", 25), ("vibration", 0.5), ("voltage", 115)]
            = some v ∧
            ∃ limits, alookup s SENSOR_CONFIG = some limits ∧
              (v < limits.1 ∨ v > limits.2) :=
  ⟨by decide, by decide,
    detect_anomalies_spec.1 _ (by decide) (by decide)⟩

/-- C2: for every non-empty log whose entries all contain the configured
sensors, `health_status` maps each configured sensor to `{avg, std_dev}`
with `avg` the mean of the sensor's values rounded to 2 decimals and
`std_dev` the sample standard deviation rounded to 2 decimals when the log
has at least 2 entries, and exactly `0.0` for a single-entry log; in
particular the single-reading log gets `std_dev = 0.0` for every sensor. -/
theorem health_status_values :
    (∀ log : List Reading, log ≠ [] →
      (∀ r ∈ log, ∀ s ∈ SENSOR_CONFIG.map Prod.fst, (alookup s r).isSome) →
      ∃ st, health_status log = some st ∧
        ∀ s ∈ SENSOR_CONFIG.map Prod.fst,
          alookup s st =
            some (round2 ((valsOf s log).sum / ((valsOf s log).length : ℚ)),
              if 1 < log.length then round2R (stdevR (valsOf s log)) else 0)) ∧
    health_status [[("temperature", 20), ("vibration", 0.5), ("voltage", 115)]]
      = some [("temperature", (20, 0)), ("vibration", (0.5, 0)),
          ("voltage", (115, 0))] := by
  constructor
  · intro log hne hall
    have hssome : ∀ s ∈ SENSOR_CONFIG.map Prod.fst,
        (sensorStatus log s).isSome := by
      intro s hs
      rw [sensorStatus_run hne (fun r hr => hall r hr s hs)]
      rfl
    obtain ⟨t, ht, htk, htm⟩ :=
      healthLoop_run SENSOR_CONFIG SENSOR_CONFIG _ [] hssome
    refine ⟨t, by simp [health_status, ht], ?_⟩
    intro s hs
    have hsin : s ∈ t.map Prod.fst := htk ▸ hs
    obtain ⟨val, hval⟩ :=
      Option.isSome_iff_exists.mp (alookup_isSome_iff.mpr hsin)
    have hsv := htm _ (alookup_mem hval)
    rw [sensorStatus_run hne (fun r hr => hall r hr s hs)] at hsv
    rw [hval]
    exact congrArg some (Option.some.inj hsv).symm
  · simp [health_status, healthLoop, sensorStatus, extractValues, meanQ,
      round2, SENSOR_CONFIG, alookup]
    norm_num

/-- C2 witness: the general statement instantiated at the single-reading
log from the spec, hypotheses discharged concretely. -/
theorem health_status_values_witness :
    (([[("temperature", 20), ("vibration", 0.5), ("voltage", 115)]] :
        List Reading) ≠ []) ∧
    (∀ r ∈ ([[("temperature", 20), ("vibration", 0.5), ("voltage", 115)]] :
        List Reading),
      ∀ s ∈ SENSOR_CONFIG.map Prod.fst, (alookup s r).isSome) ∧
    ∃ st,
      health_status [[("temperature", 20), ("vibration", 0.5), ("voltage", 115)]]
        = some st ∧
      ∀ s ∈ SENSOR_CONFIG.map Prod.fst,
        alookup s st =
          some (round2 ((valsOf s [[("temperature", 20), ("vibration", 0.5),
              ("voltage", 115)]]).sum /
              ((valsOf s [[("temperature", 20), ("vibration", 0.5),
                ("voltage", 115)]]).length : ℚ)),
            if 1 < ([[("temperature", 20), ("vibration", 0.5),
                ("voltage", 115)]] : List Reading).length then
              round2R (stdevR (valsOf s [[("temperature", 20),
                ("vibration", 0.5), ("voltage", 115)]]))
            else 0) :=
  ⟨by decide, by decide, health_status_values.1 _ (by decide) (by decide)⟩

/-- C3: at every iteration of the driver loop, every reading stored in the
log has exactly the three configured sensor keys, the log is append-only
(each iteration appends one reading), and the `i`-th element of the log is
the reading generated on the `i`-th tick. -/
theorem driver_log_invariant :
    (∀ (rand : Nat → ℚ × ℚ × ℚ) (n : Nat), (mainLog rand n).length = n) ∧
    (∀ (rand : Nat → ℚ × ℚ × ℚ) (n : Nat), ∀ r ∈ mainLog rand n,
      r.map Prod.fst = ["temperature", "vibration", "voltage"]) ∧
    (∀ (rand : Nat → ℚ × ℚ × ℚ) (n : Nat),
      mainLog rand (n + 1) = mainLog rand n ++ [generate_sensor_data (rand n)]) ∧
    (∀ (rand : Nat → ℚ × ℚ × ℚ) (n i : Nat) (h : i < (mainLog rand n).length),
      (mainLog rand n).get ⟨i, h⟩ = generate_sensor_data (rand i)) :=
  ⟨mainLog_length, mainLog_keys, fun _ _ => rfl, mainLog_get⟩

/-- C3 witness: the invariants instantiated on a concrete 3-tick run. -/
theorem driver_log_invariant_witness :
    (mainLog randZero 3).length = 3 ∧
    (generate_sensor_data (randZero 0)).map Prod.fst
      = ["temperature", "vibration", "voltage"] ∧
    mainLog randZero 3 = mainLog randZero 2 ++ [generate_sensor_data (randZero 2)] ∧
    ∃ h : 1 < (mainLog randZero 3).length,
      (mainLog randZero 3).get ⟨1, h⟩ = generate_sensor_data (randZero 1) := by
  have h : 1 < (mainLog randZero 3).length := by
    rw [mainLog_length]
    omega
  refine ⟨driver_log_invariant.1 randZero 3, ?_,
    driver_log_invariant.2.2.1 randZero 2, h,
    driver_log_invariant.2.2.2 randZero 3 1 h⟩
  exact driver_log_invariant.2.1 randZero 1 _ (by simp [mainLog])

/-- C4: running the driver for `N ≥ 1` ticks yields an output pair of the
chronological log (exactly `N` readings, each with the three numeric sensor
keys) and a summary keyed by exactly the three configured sensors. -/
theorem driver_output :
    ∀ (rand : Nat → ℚ × ℚ × ℚ) (n : Nat), 0 < n →
      ∃ summary, mainOutput rand n = some (mainLog rand n, summary) ∧
        (mainLog rand n).length = n ∧
        (∀ r ∈ mainLog rand n,
          r.map Prod.fst = ["temperature", "vibration", "voltage"]) ∧
        summary.map Prod.fst = ["temperature", "vibration", "voltage"] := by
  intro rand n hn
  have hne : mainLog rand n ≠ [] := by
    rw [← List.length_pos, mainLog_length]
    exact hn
  have hall : ∀ r ∈ mainLog rand n, ∀ s ∈ SENSOR_CONFIG.map Prod.fst,
      (alookup s r).isSome := by
    intro r hr s hs
    rw [alookup_isSome_iff, mainLog_keys rand n r hr]
    exact hs
  have hssome : ∀ s ∈ SENSOR_CONFIG.map Prod.fst,
      (sensorStatus (mainLog rand n) s).isSome := by
    intro s hs
    rw [sensorStatus_run hne (fun r hr => hall r hr s hs)]
    rfl
  obtain ⟨t, ht, htk, _⟩ :=
    healthLoop_run SENSOR_CONFIG SENSOR_CONFIG _ [] hssome
  refine ⟨t, ?_, mainLog_length rand n, mainLog_keys rand n, ?_⟩
  · simp [mainOutput, health_status, ht]
  · rw [htk]
    rfl

/-- C4 witness: a concrete 3-tick run produces exactly 3 readings and a
summary over the three configured sensors. -/
theorem driver_output_witness :
    0 < 3 ∧
    ∃ summary, mainOutput randZero 3 = some (mainLog randZero 3, summary) ∧
      (mainLog randZero 3).length = 3 ∧
      (∀ r ∈ mainLog randZero 3,
        r.map Prod.fst = ["temperature", "vibration", "voltage"]) ∧
      summary.map Prod.fst = ["temperature", "vibration", "voltage"] :=
  ⟨by omega, driver_output randZero 3 (by omega)⟩

/-- C5: `health_status` is permutation-invariant — permuting a non-empty
log whose entries contain the configured sensors does not change the
summary. -/
theorem health_status_perm :
    ∀ log₁ log₂ : List Reading, log₁.Perm log₂ → log₁ ≠ [] →
      (∀ r ∈ log₁, ∀ s ∈ SENSOR_CONFIG.map Prod.fst, (alookup s r).isSome) →
      health_status log₁ = health_status log₂ := by
  intro log₁ log₂ hperm hne hall
  have hs : ∀ s ∈ SENSOR_CONFIG.map Prod.fst,
      sensorStatus log₁ s = sensorStatus log₂ s :=
    fun s hsm => sensorStatus_of_perm hperm s (fun r hr => hall r hr s hsm)
  exact healthLoop_status_congr SENSOR_CONFIG [] hs

/-- C5 witness: swapping the two readings of a concrete log leaves the
summary unchanged. -/
theorem health_status_perm_witness :
    (([[("temperature", 20), ("vibration", 1), ("voltage", 115)],
        [("temperature", 22), ("vibration", 1), ("voltage", 117)]] :
        List Reading).Perm
      [[("temperature", 22), ("vibration", 1), ("voltage", 117)],
        [("temperature", 20), ("vibration", 1), ("voltage", 115)]]) ∧
    health_status
        [[("temperature", 20), ("vibration", 1), ("voltage", 115)],
          [("temperature", 22), ("vibration", 1), ("voltage", 117)]]
      = health_status
        [[("temperature", 22), ("vibration", 1), ("voltage", 117)],
          [("temperature", 20), ("vibration", 1), ("voltage", 115)]] :=
  ⟨by decide, health_status_perm _ _ (by decide) (by decide) (by decide)⟩

/-- C6: whatever the randomness source yields, a generated reading has
temperature in [18.5, 24.5], vibration in [0.05, 1.1], voltage in
[108.0, 127.0], each value rounded to exactly 2 decimal places. -/
theorem generate_sensor_data_bounds :
    ∀ u₁ u₂ u₃ : ℚ, 0 ≤ u₁ → u₁ < 1 → 0 ≤ u₂ → u₂ < 1 → 0 ≤ u₃ → u₃ < 1 →
      ∃ t v w, generate_sensor_data (u₁, u₂, u₃)
          = [("temperature", t), ("vibration", v), ("voltage", w)] ∧
        (18.5 ≤ t ∧ t ≤ 24.5 ∧ TwoDecimals t) ∧
        (0.05 ≤ v ∧ v ≤ 1.1 ∧ TwoDecimals v) ∧
        (108.0 ≤ w ∧ w ≤ 127.0 ∧ TwoDecimals w) := by
  intro u₁ u₂ u₃ h₁l h₁u h₂l h₂u h₃l h₃u
  obtain ⟨ht₁, ht₂, ht₃⟩ :=
    round2_uniform_bounds 18.5 24.5 1850 2450
      h₁l h₁u (by norm_num) (by norm_num) (by norm_num)
  obtain ⟨hv₁, hv₂, hv₃⟩ :=
    round2_uniform_bounds 0.05 1.1 5 110
      h₂l h₂u (by norm_num) (by norm_num) (by norm_num)
  obtain ⟨hw₁, hw₂, hw₃⟩ :=
    round2_uniform_bounds 108.0 127.0 10800 12700
      h₃l h₃u (by norm_num) (by norm_num) (by norm_num)
  exact ⟨_, _, _, rfl, ⟨ht₁, ht₂, ht₃⟩, ⟨hv₁, hv₂, hv₃⟩, ⟨hw₁, hw₂, hw₃⟩⟩

/-- C6 witness: the bounds instantiated at the middle draw `(1/2, 1/2, 1/2)`. -/
theorem generate_sensor_data_bounds_witness :
    (0 : ℚ) ≤ 1 / 2 ∧ (1 : ℚ) / 2 < 1 ∧
    ∃ t v w, generate_sensor_data (1 / 2, 1 / 2, 1 / 2)
        = [("temperature", t), ("vibration", v), ("voltage", w)] ∧
      (18.5 ≤ t ∧ t ≤ 24.5 ∧ TwoDecimals t) ∧
      (0.05 ≤ v ∧ v ≤ 1.1 ∧ TwoDecimals v) ∧
      (108.0 ≤ w ∧ w ≤ 127.0 ∧ TwoDecimals w) :=
  ⟨by norm_num, by norm_num,
    generate_sensor_data_bounds (1 / 2) (1 / 2) (1 / 2)
      (by norm_num) (by norm_num) (by norm_num)
      (by norm_num) (by norm_num) (by norm_num)⟩

/-- C7: `detect_anomalies` fails (with Python's `KeyError`) iff the reading
contains a sensor absent from `SENSOR_CONFIG`; when all keys are
configured it never fails. -/
theorem detect_anomalies_error_iff :
    (∀ data : Reading,
      detect_anomalies data = none ↔
        ∃ p ∈ data, alookup p.1 SENSOR_CONFIG = none) ∧
    (∀ data : Reading,
      (∀ p ∈ data, (alookup p.1 SENSOR_CONFIG).isSome) →
      (detect_anomalies data).isSome) := by
  constructor
  · intro data
    simp only [detect_anomalies, Option.map_eq_none']
    exact detectLoop_eq_none_iff data _
  · intro data hall
    rw [detect_anomalies,
      detectLoop_run data SENSOR_CONFIG data [] hall]
    rfl

/-- C7 witness: a fully configured reading is accepted, and a reading with
an unconfigured sensor makes the lookup fail. -/
theorem detect_anomalies_error_iff_witness :
    (∀ p ∈ ([("temperature", 20), ("humidity", 40)] : Reading),
        (alookup p.1 SENSOR_CONFIG).isSome) = False ∧
    (∀ p ∈ ([("temperature", 20), ("vibration", 1)] : Reading),
      (alookup p.1 SENSOR_CONFIG).isSome) ∧
    (detect_anomalies [("temperature", 20), ("vibration", 1)]).isSome :=
  ⟨by simp [SENSOR_CONFIG, alookup], by decide,
    detect_anomalies_error_iff.2 _ (by decide)⟩

/-- C8: with a non-empty log whose entries contain the configured sensors,
`health_status` cannot fail; conversely on the empty log the per-sensor
mean computation fails for every configured sensor, and `health_status`
itself fails. -/
theorem health_status_total :
    (∀ log : List Reading, log ≠ [] →
      (∀ r ∈ log, ∀ s ∈ SENSOR_CONFIG.map Prod.fst, (alookup s r).isSome) →
      (health_status log).isSome) ∧
    (∀ s ∈ SENSOR_CONFIG.map Prod.fst, sensorStatus [] s = none) ∧
    health_status [] = none := by
  refine ⟨?_, fun s _ => sensorStatus_empty s, health_status_empty_eq_none⟩
  intro log hne hall
  have hssome : ∀ s ∈ SENSOR_CONFIG.map Prod.fst,
      (sensorStatus log s).isSome := by
    intro s hs
    rw [sensorStatus_run hne (fun r hr => hall r hr s hs)]
    rfl
  obtain ⟨t, ht, _, _⟩ :=
    healthLoop_run SENSOR_CONFIG SENSOR_CONFIG _ [] hssome
  simp [health_status, ht]

/-- C8 witness: the no-failure statement instantiated at a concrete
singleton log. -/
theorem health_status_total_witness :
    (([[("temperature", 21), ("vibration", 1), ("voltage", 120)]] :
        List Reading) ≠ []) ∧
    (∀ r ∈ ([[("temperature", 21), ("vibration", 1), ("voltage", 120)]] :
        List Reading),
      ∀ s ∈ SENSOR_CONFIG.map Prod.fst, (alookup s r).isSome) ∧
    (health_status [[("temperature", 21), ("vibration", 1), ("voltage", 120)]]).isSome :=
  ⟨by decide, by decide, health_status_total.1 _ (by decide) (by decide)⟩

/-- C9: the checker and the summarizer mutate neither their input nor
`SENSOR_CONFIG`: after either loop runs, the state's configuration, input
reading and log are exactly what they were at entry. -/
theorem no_mutation_frame :
    (∀ (data : Reading) (s₂ : DetectState),
      detectLoop ⟨SENSOR_CONFIG, data, []⟩ data = some s₂ →
      s₂.config = SENSOR_CONFIG ∧ s₂.data = data) ∧
    (∀ (log : List Reading) (s₂ : HealthState),
      healthLoop ⟨SENSOR_CONFIG, log, []⟩ SENSOR_CONFIG = some s₂ →
      s₂.config = SENSOR_CONFIG ∧ s₂.log = log) :=
  ⟨fun data s₂ h => detectLoop_frame data _ s₂ h,
    fun log s₂ h => healthLoop_frame SENSOR_CONFIG _ s₂ h⟩

/-- C9 witness: concrete runs of both loops, with the frame conclusions
extracted through the theorem. -/
theorem no_mutation_frame_witness :
    (detectLoop ⟨SENSOR_CONFIG, [("temperature", 20), ("vibration", 1)], []⟩
        [("temperature", 20), ("vibration", 1)]
      = some ⟨SENSOR_CONFIG, [("temperature", 20), ("vibration", 1)], []⟩) ∧
    ((⟨SENSOR_CONFIG, [("temperature", 20), ("vibration", 1)], []⟩ :
        DetectState).config = SENSOR_CONFIG ∧
      (⟨SENSOR_CONFIG, [("temperature", 20), ("vibration", 1)], []⟩ :
        DetectState).data = [("temperature", 20), ("vibration", 1)]) ∧
    (healthLoop
        ⟨SENSOR_CONFIG, [[("temperature", 21), ("vibration", 1), ("voltage", 120)]], []⟩
        SENSOR_CONFIG
      = some ⟨SENSOR_CONFIG,
          [[("temperature", 21), ("vibration", 1), ("voltage", 120)]],
          [("temperature", (21, 0)), ("vibration", (1, 0)),
            ("voltage", (120, 0))]⟩) ∧
    ((⟨SENSOR_CONFIG, [[("temperature", 21), ("vibration", 1), ("voltage", 120)]],
        [("temperature", (21, 0)), ("vibration", (1, 0)), ("voltage", (120, 0))]⟩ :
        HealthState).config = SENSOR_CONFIG ∧
      (⟨SENSOR_CONFIG, [[("temperature", 21), ("vibration", 1), ("voltage", 120)]],
        [("temperature", (21, 0)), ("vibration", (1, 0)), ("voltage", (120, 0))]⟩ :
        HealthState).log
        = [[("temperature", 21), ("vibration", 1), ("voltage", 120)]]) := by
  have hd : detectLoop ⟨SENSOR_CONFIG, [("temperature", 20), ("vibration", 1)], []⟩
      [("temperature", 20), ("vibration", 1)]
      = some ⟨SENSOR_CONFIG, [("temperature", 20), ("vibration", 1)], []⟩ := by
    simp [detectLoop, SENSOR_CONFIG, alookup]
    norm_num
  have hh : healthLoop
      ⟨SENSOR_CONFIG, [[("temperature", 21), ("vibration", 1), ("voltage", 120)]], []⟩
      SENSOR_CONFIG
      = some ⟨SENSOR_CONFIG,
          [[("temperature", 21), ("vibration", 1), ("voltage", 120)]],
          [("temperature", (21, 0)), ("vibration", (1, 0)),
            ("voltage", (120, 0))]⟩ := by
    simp [healthLoop, sensorStatus, extractValues, meanQ, round2,
      SENSOR_CONFIG, alookup]
    norm_num
  exact ⟨hd, no_mutation_frame.1 _ _ hd, hh, no_mutation_frame.2 _ _ hh⟩

/-- C10: for a non-empty log whose entries contain at least the configured
sensors, the summary's key set is exactly `SENSOR_CONFIG`'s key set — extra
sensor keys in log entries never show up. -/
theorem health_status_keys :
    ∀ log : List Reading, log ≠ [] →
      (∀ r ∈ log, ∀ s ∈ SENSOR_CONFIG.map Prod.fst, (alookup s r).isSome) →
      ∃ st, health_status log = some st ∧
        st.map Prod.fst = SENSOR_CONFIG.map Prod.fst := by
  intro log hne hall
  have hssome : ∀ s ∈ SENSOR_CONFIG.map Prod.fst,
      (sensorStatus log s).isSome := by
    intro s hs
    rw [sensorStatus_run hne (fun r hr => hall r hr s hs)]
    rfl
  obtain ⟨t, ht, htk, _⟩ :=
    healthLoop_run SENSOR_CONFIG SENSOR_CONFIG _ [] hssome
  exact ⟨t, by simp [health_status, ht], htk⟩

/-- C10 witness: a log entry carrying an extra `humidity` key still yields
a summary keyed by exactly the three configured sensors. -/
theorem health_status_keys_witness :
    (([[("temperature", 21), ("vibration", 1), ("voltage", 120),
        ("humidity", 40)]] : List Reading) ≠ []) ∧
    (∀ r ∈ ([[("temperature", 21), ("vibration", 1), ("voltage", 120),
        ("humidity", 40)]] : List Reading),
      ∀ s ∈ SENSOR_CONFIG.map Prod.fst, (alookup s r).isSome) ∧
    ∃ st,
      health_status [[("temperature", 21), ("vibration", 1), ("voltage", 120),
          ("humidity", 40)]] = some st ∧
        st.map Prod.fst = SENSOR_CONFIG.map Prod.fst :=
  ⟨by decide, by decide, health_status_keys _ (by decide) (by decide)⟩

end EdgeDetector
